import Mathlib

/-!
Verification of the nosync LD_PRELOAD shim
(src/backends/debian/meta-n3x/recipes-support/gptfdisk-wsl-fix/files/nosync.c).

The translation unit defines a single function, `void sync(void) { return; }`,
intended to shadow the C library's global filesystem-sync primitive when the
shared object is preloaded.  We embed the shim shallowly: a small statement
language covering the effects such a function body could have (global flush,
per-fd flush, per-filesystem flush, errno writes, allocation, return), an
interpreter over an explicit process/filesystem state, the body of the shim's
`sync` transcribed from the source, a model of the translation unit's exports
and of preload-order symbol resolution, and an interleaved scheduler for
multi-threaded invocation.
-/

namespace Nosync

/-- C calling conventions relevant to the shim's interface. -/
inductive CallConv where
  | cdecl
deriving DecidableEq, Repr

/-- C types appearing in the shim's interface. -/
inductive CType where
  | void
  | int
deriving DecidableEq, Repr

/-- Name, parameter types, return type and calling convention of an exported
C function symbol. -/
structure FunSig where
  name : String
  params : List CType
  ret : CType
  cc : CallConv
deriving DecidableEq, Repr

/-- Statements a body like the shim's could execute: the three flush
primitives, an errno write, a heap allocation, and `return`. -/
inductive Stmt where
  | flushAll
  | flushFd (fd : Nat)
  | flushFs (fd : Nat)
  | setErrno (e : Int)
  | alloc (n : Nat)
  | ret
deriving DecidableEq, Repr

/-- Observable process and filesystem state: a dirty flag per mounted
filesystem, a dirty flag per open file descriptor, the filesystem each
descriptor lives on, the thread-visible errno cell, allocated heap bytes,
the process environment, and the static storage of loaded libraries. -/
structure ProcState where
  fsDirty : List Bool
  fdDirty : List Bool
  fdFs : List Nat
  errno : Int
  heap : Nat
  env : List (String × String)
  statics : List (String × Int)
deriving DecidableEq, Repr

/-- Externally observable events a statement can emit. -/
inductive Event where
  | sysSync
  | sysFsync (fd : Nat)
  | sysSyncfs (fd : Nat)
  | errnoWrite (e : Int)
  | allocEv (n : Nat)
deriving DecidableEq, Repr

/-- State effect of one statement.  A global flush cleans every mounted
filesystem and every descriptor; a per-fd flush cleans one descriptor; a
per-filesystem flush cleans the filesystem holding the descriptor. -/
def stepStmt : Stmt → ProcState → ProcState
  | Stmt.flushAll, s =>
      { s with fsDirty := s.fsDirty.map (fun _ => false),
               fdDirty := s.fdDirty.map (fun _ => false) }
  | Stmt.flushFd fd, s => { s with fdDirty := s.fdDirty.set fd false }
  | Stmt.flushFs fd, s => { s with fsDirty := s.fsDirty.set (s.fdFs.getD fd 0) false }
  | Stmt.setErrno e, s => { s with errno := e }
  | Stmt.alloc n, s => { s with heap := s.heap + n }
  | Stmt.ret, s => s

/-- Events one statement emits. -/
def stmtTrace : Stmt → List Event
  | Stmt.flushAll => [Event.sysSync]
  | Stmt.flushFd fd => [Event.sysFsync fd]
  | Stmt.flushFs fd => [Event.sysSyncfs fd]
  | Stmt.setErrno e => [Event.errnoWrite e]
  | Stmt.alloc n => [Event.allocEv n]
  | Stmt.ret => []

/-- Abstract time one statement takes: a global flush visits every mounted
filesystem, everything else is one step. -/
def stmtCost (st : Stmt) (s : ProcState) : Nat :=
  match st with
  | Stmt.flushAll => 1 + s.fsDirty.length
  | _ => 1

/-- Whether a statement can block (the flush primitives wait on backing
stores; a 9p mount can stall them indefinitely). -/
def stmtMayBlock : Stmt → Bool
  | Stmt.flushAll => true
  | Stmt.flushFd _ => true
  | Stmt.flushFs _ => true
  | _ => false

/-- Whether a statement can fail (system calls and allocation can; a bare
`return` cannot). -/
def stmtFallible : Stmt → Bool
  | Stmt.flushAll => true
  | Stmt.flushFd _ => true
  | Stmt.flushFs _ => true
  | Stmt.alloc _ => true
  | _ => false

/-- Whether a statement can read or write the errno cell: an explicit errno
write does, and so can any forwarded system call or allocation. -/
def stmtAccessesErrno : Stmt → Bool
  | Stmt.setErrno _ => true
  | Stmt.flushAll => true
  | Stmt.flushFd _ => true
  | Stmt.flushFs _ => true
  | Stmt.alloc _ => true
  | Stmt.ret => false

/-- Kinds of shared mutable locations in the process. -/
inductive LocKind where
  | fsBufs
  | fdBufs
  | errnoCell
  | heapCell
deriving DecidableEq, Repr

/-- Shared locations a statement writes. -/
def stmtWritesL : Stmt → List LocKind
  | Stmt.flushAll => [LocKind.fsBufs, LocKind.fdBufs]
  | Stmt.flushFd _ => [LocKind.fdBufs]
  | Stmt.flushFs _ => [LocKind.fsBufs]
  | Stmt.setErrno _ => [LocKind.errnoCell]
  | Stmt.alloc _ => [LocKind.heapCell]
  | Stmt.ret => []

/-- Shared locations a statement reads. -/
def stmtReadsL : Stmt → List LocKind
  | Stmt.flushAll => [LocKind.fsBufs, LocKind.fdBufs]
  | Stmt.flushFd _ => [LocKind.fdBufs]
  | Stmt.flushFs _ => [LocKind.fsBufs]
  | _ => []

/-- Two statements race when one writes a location the other reads or
writes. -/
def racy (a b : Stmt) : Bool :=
  (stmtWritesL a).any (fun l => l ∈ stmtWritesL b ++ stmtReadsL b) ||
  (stmtWritesL b).any (fun l => l ∈ stmtReadsL a)

/-- The prefix of a body that actually executes: everything up to and
including the first `return`. -/
def executed : List Stmt → List Stmt
  | [] => []
  | Stmt.ret :: _ => [Stmt.ret]
  | st :: rest => st :: executed rest

/-- Final state after executing a body sequentially; `return` stops
execution. -/
def execS : List Stmt → ProcState → ProcState
  | [], s => s
  | Stmt.ret :: _, s => s
  | st :: rest, s => execS rest (stepStmt st s)

/-- Event trace of executing a body sequentially. -/
def execTrace : List Stmt → ProcState → List Event
  | [], _ => []
  | Stmt.ret :: _, _ => []
  | st :: rest, s => stmtTrace st ++ execTrace rest (stepStmt st s)

/-- Abstract running time of a body: one unit for the final `return`, plus
each executed statement's cost. -/
def execCost : List Stmt → ProcState → Nat
  | [], _ => 0
  | Stmt.ret :: _, _ => 1
  | st :: rest, s => stmtCost st s + execCost rest (stepStmt st s)

/-- Body of the overriding `sync` in nosync.c: the body is a single
`return;` — no flush, no other statement. -/
def syncBody : List Stmt := [Stmt.ret]

/-- The shim's `sync`, as a state transformer: run `syncBody`. -/
def sync (s : ProcState) : ProcState := execS syncBody s

/-- Modelled from the spec: the C library's real global sync — flush all
dirty buffers for all mounted filesystems. -/
def libcSyncBody : List Stmt := [Stmt.flushAll, Stmt.ret]

/-- Modelled from the spec: the C library's real fsync — flush the buffers
of one open descriptor. -/
def libcFsyncBody (fd : Nat) : List Stmt := [Stmt.flushFd fd, Stmt.ret]

/-- Modelled from the spec: the C library's real syncfs — flush the
filesystem containing one open descriptor. -/
def libcSyncfsBody (fd : Nat) : List Stmt := [Stmt.flushFs fd, Stmt.ret]

/-- Behaviours a resolved symbol can have. -/
inductive Behaviour where
  | noop
  | realSync
  | realFsync
  | realSyncfs
deriving DecidableEq, Repr

/-- Body implementing each behaviour; the `Nat` argument is the descriptor
argument of fsync/syncfs, ignored by the nullary syncs. -/
def behaviourBody : Behaviour → Nat → List Stmt
  | Behaviour.noop, _ => syncBody
  | Behaviour.realSync, _ => libcSyncBody
  | Behaviour.realFsync, fd => libcFsyncBody fd
  | Behaviour.realSyncfs, fd => libcSyncfsBody fd

/-- A C translation unit, reduced to what nosync.c can contain: global
variables, file-static variables, and externally visible functions. -/
structure TranslationUnit where
  globalVars : List String
  staticVars : List String
  functions : List (FunSig × List Stmt)
deriving DecidableEq, Repr

/-- The signature of the one function nosync.c defines:
`void sync(void)` with plain C linkage. -/
def syncSig : FunSig :=
  { name := ("sync"), params := [], ret := CType.void, cc := CallConv.cdecl }

/-- nosync.c as a translation unit: no globals, no statics, one function
`sync` whose body is `syncBody`. -/
def nosyncTU : TranslationUnit :=
  { globalVars := [], staticVars := [], functions := [(syncSig, syncBody)] }

/-- Symbols the shared object exports: the signatures of the translation
unit's functions. -/
def nosyncExports : List FunSig := nosyncTU.functions.map (fun f => f.1)

/-- Modelled from the spec: the exact name and signature of the platform's
global filesystem-sync primitive — named sync, standard C calling
convention, no parameters, no return value. -/
def platformSyncSig : FunSig :=
  { name := ("sync"), params := [], ret := CType.void, cc := CallConv.cdecl }

/-- Behaviour the shim supplies for a symbol name: its no-op for any name
it exports, nothing otherwise. -/
def shimBehaviour (n : String) : Option Behaviour :=
  if nosyncExports.any (fun f => f.name = n) then some Behaviour.noop else none

/-- Modelled from the spec: behaviour the C library supplies for the three
sync primitives. -/
def libcBehaviour : String → Option Behaviour
  | "sync" => some Behaviour.realSync
  | "fsync" => some Behaviour.realFsync
  | "syncfs" => some Behaviour.realSyncfs
  | _ => none

/-- Preload-order symbol resolution: a name the shim defines binds to the
shim; every other name keeps its C library binding. -/
def preloadedBehaviour (n : String) : Option Behaviour :=
  match shimBehaviour n with
  | some b => some b
  | none => libcBehaviour n

/-- Static storage a translation unit owns. -/
def tuStorage (tu : TranslationUnit) : List String :=
  tu.globalVars ++ tu.staticVars

/-- Loading a library initialises its static storage (to zero) inside the
process. -/
def loadLib (tu : TranslationUnit) (s : ProcState) : ProcState :=
  { s with statics := s.statics ++ (tuStorage tu).map (fun n => (n, 0)) }

/-- Unloading a library destroys its static storage. -/
def unloadLib (tu : TranslationUnit) (s : ProcState) : ProcState :=
  { s with statics := s.statics.filter (fun p => !(tuStorage tu).contains p.1) }

/-- One scheduler step: thread `i` executes the head statement of its
remaining program; `return` ends the thread. -/
def stepThread (ts : List (List Stmt)) (i : Nat) (s : ProcState) :
    List (List Stmt) × ProcState :=
  match ts[i]? with
  | none => (ts, s)
  | some [] => (ts, s)
  | some (Stmt.ret :: _) => (ts.set i [], s)
  | some (st :: rest) => (ts.set i rest, stepStmt st s)

/-- Run threads `ts` under an arbitrary schedule: at each entry the named
thread takes one step. -/
def runSched : List Nat → List (List Stmt) → ProcState → ProcState
  | [], _, s => s
  | i :: sched, ts, s =>
      runSched sched (stepThread ts i s).1 (stepThread ts i s).2

/-- Every thread is either finished or about to run the shim's body. -/
def BenignThreads (ts : List (List Stmt)) : Prop :=
  ∀ t ∈ ts, t = [] ∨ t = syncBody

theorem stepThread_benign (ts : List (List Stmt)) (i : Nat) (s : ProcState)
    (h : BenignThreads ts) :
    BenignThreads (stepThread ts i s).1 ∧ (stepThread ts i s).2 = s := by
  rcases hg : ts[i]? with _ | t
  · constructor
    · simpa [stepThread, hg] using h
    · simp [stepThread, hg]
  · rcases h t (List.getElem?_mem hg) with ht | ht
    · subst ht
      constructor
      · simpa [stepThread, hg] using h
      · simp [stepThread, hg]
    · subst ht
      constructor
      · intro u hu
        rcases List.mem_or_eq_of_mem_set (by simpa [stepThread, hg, syncBody] using hu)
          with hu' | hu'
        · exact h u hu'
        · exact Or.inl hu'
      · simp [stepThread, hg, syncBody]

theorem runSched_benign (sched : List Nat) (ts : List (List Stmt))
    (s : ProcState) (h : BenignThreads ts) : runSched sched ts s = s := by
  induction sched generalizing ts with
  | nil => rfl
  | cons i sched ih =>
      have hb := stepThread_benign ts i s h
      rw [runSched, hb.2]
      exact ih _ hb.1

theorem benign_replicate (n : Nat) :
    BenignThreads (List.replicate n syncBody) := by
  intro t ht
  exact Or.inr (List.eq_of_mem_replicate ht)

theorem sync_iterate (n : Nat) (s : ProcState) : sync^[n] s = s := by
  induction n with
  | zero => rfl
  | succ k ih => rw [Function.iterate_succ_apply, show sync s = s from rfl, ih]

theorem filter_of_empty_storage (l : List (String × Int)) :
    (l.filter fun p => !(([] : List String)).contains p.1) = l := by
  induction l with
  | nil => rfl
  | cons a l ih => simp [List.filter, ih, List.contains]

/-- C1: in every process state, the shim's sync performs no flush and
changes no observable state: it is the identity on the process state, emits
no event, and leaves every dirty buffer exactly as it was. -/
theorem sync_is_pure_noop (s : ProcState) :
    sync s = s ∧ execTrace syncBody s = [] ∧
    (sync s).fsDirty = s.fsDirty ∧ (sync s).fdDirty = s.fdDirty :=
  ⟨rfl, rfl, rfl, rfl⟩

/-- C2: the shim exports no symbol for fsync or syncfs, so under preload
resolution both keep the C library's real behaviour, and that behaviour
really flushes the named descriptor (resp. its filesystem). -/
theorem shim_leaves_fsync_syncfs_real :
    shimBehaviour ("fsync") = none ∧ shimBehaviour ("syncfs") = none ∧
    preloadedBehaviour ("fsync") = libcBehaviour ("fsync") ∧
    preloadedBehaviour ("syncfs") = libcBehaviour ("syncfs") ∧
    preloadedBehaviour ("fsync") = some Behaviour.realFsync ∧
    preloadedBehaviour ("syncfs") = some Behaviour.realSyncfs ∧
    (∀ fd s, execS (behaviourBody ((preloadedBehaviour ("fsync")).getD Behaviour.noop) fd) s =
      { s with fdDirty := s.fdDirty.set fd false }) ∧
    (∀ fd s, execS (behaviourBody ((preloadedBehaviour ("syncfs")).getD Behaviour.noop) fd) s =
      { s with fsDirty := s.fsDirty.set (s.fdFs.getD fd 0) false }) :=
  ⟨rfl, rfl, rfl, rfl, rfl, rfl, fun _ _ => rfl, fun _ _ => rfl⟩

/-- C3: the translation unit exports exactly one function, and it has the
platform sync primitive's exact name and signature: named sync, standard C
calling convention, no parameters, no return value. -/
theorem sync_export_matches_platform :
    nosyncExports = [platformSyncSig] ∧ nosyncExports.length = 1 :=
  ⟨rfl, rfl⟩

/-- C4: invoking the shim's sync N times — sequentially or under any
interleaving of N threads — is the identity on the process state, the same
as invoking it zero times. -/
theorem sync_n_fold_identity (n : Nat) (sched : List Nat) (s : ProcState) :
    sync^[n] s = s ∧ runSched sched (List.replicate n syncBody) s = s :=
  ⟨sync_iterate n s, runSched_benign sched _ s (benign_replicate n)⟩

/-- C5: the shim's sync cannot fail: its executed body contains no fallible
statement (no I/O, no allocation), it emits no event, allocates nothing,
produces no error value in errno, and returns the state unchanged. -/
theorem sync_has_no_error_condition (s : ProcState) :
    ((executed syncBody).all fun st => !stmtFallible st) = true ∧
    execTrace syncBody s = [] ∧ (sync s).heap = s.heap ∧
    (sync s).errno = s.errno ∧ sync s = s :=
  ⟨rfl, rfl, rfl, rfl, rfl⟩

/-- C6: the shim's sync terminates in one abstract step in every state, its
running time does not depend on the state (in particular not on how many
filesystems are mounted), and its executed body contains no statement that
can block; by contrast the real global sync's cost grows with the number of
mounted filesystems. -/
theorem sync_terminates_bounded (s t : ProcState) :
    execCost syncBody s = 1 ∧ execCost syncBody s = execCost syncBody t ∧
    ((executed syncBody).all fun st => !stmtMayBlock st) = true ∧
    execCost libcSyncBody s = 1 + s.fsDirty.length + 1 :=
  ⟨rfl, rfl, rfl, rfl⟩

/-- C7: the translation unit owns no state: it declares no global or static
variable, its one function writes no shared location, and the whole
lifecycle — load, any number of invocations, unload — maps every process
state to itself. -/
theorem nosync_owns_no_state (s : ProcState) (n : Nat) :
    tuStorage nosyncTU = [] ∧
    (nosyncTU.functions.all fun f =>
      (executed f.2).all fun st => (stmtWritesL st).isEmpty) = true ∧
    unloadLib nosyncTU (sync^[n] (loadLib nosyncTU s)) = s := by
  refine ⟨rfl, rfl, ?_⟩
  have hload : loadLib nosyncTU s = s := by
    simp [loadLib, tuStorage, nosyncTU]
  rw [hload, sync_iterate]
  show { s with statics := s.statics.filter _ } = s
  rw [show tuStorage nosyncTU = [] from rfl, filter_of_empty_storage]

/-- C8: the shim's sync is deterministic and input-independent: any two
invocations, from any two process states (any environment, any
configuration), produce the same — empty — observable trace and leave
their states unchanged. -/
theorem sync_trace_input_independent (s t : ProcState) :
    execTrace syncBody s = execTrace syncBody t ∧
    execTrace syncBody s = [] ∧ sync s = s ∧ sync t = t ∧
    (∀ e, sync { s with env := e } = { s with env := e }) :=
  ⟨rfl, rfl, rfl, rfl, fun _ => rfl⟩

/-- C9: the shim's sync touches no shared mutable state — every statement
of its body reads and writes no shared location, so no two concurrent
occurrences race — and any number of threads running it under any schedule
leave the state unchanged with no coordination. -/
theorem sync_concurrent_race_free (n : Nat) (sched : List Nat) (s : ProcState) :
    (syncBody.all fun a => syncBody.all fun b => !racy a b) = true ∧
    (syncBody.all fun st => (stmtWritesL st).isEmpty) = true ∧
    (syncBody.all fun st => (stmtReadsL st).isEmpty) = true ∧
    runSched sched (List.replicate n syncBody) s = s :=
  ⟨rfl, rfl, rfl, runSched_benign sched _ s (benign_replicate n)⟩

/-- C10: the shim's sync leaves errno unchanged in every state, and its
executed body contains no statement that could read or write errno — unlike
a wrapper forwarding to a real system call. -/
theorem sync_preserves_errno (s : ProcState) :
    (sync s).errno = s.errno ∧
    ((executed syncBody).all fun st => !stmtAccessesErrno st) = true :=
  ⟨rfl, rfl⟩

end Nosync
